import Mathlib

/-!
# Verification of the department research dashboard (src/main.py)

Shallow embedding of the data pipeline of `src/main.py`:
the tolerant file loader `load_file`, the merge/clean function
`load_and_clean_data`, the sidebar file-tagging logic, and the
`st.cache_data` memoization wrapper.

Tables model pandas DataFrames: a header (list of column labels) and a
list of rows.  A DataFrame is rectangular; rows shorter than the header
are read with missing values (`Cell.na`), matching how `read_csv` pads
under-length records with NaN.  Cells are strings, (rational) numbers,
or the missing-value marker NaN.
-/

/-- A cell of a DataFrame: a string, a number, or the missing marker NaN. -/
inductive Cell where
  | str (s : String)
  | num (q : ℚ)
  | na
deriving DecidableEq, Repr

/-- A pandas DataFrame: column labels plus rows of cells. -/
structure RawTable where
  header : List String
  rows : List (List Cell)
deriving DecidableEq, Repr

/-- Total cell access: out-of-range reads give the missing marker,
matching the rectangular-with-NaN-padding DataFrame model. -/
def cellAt (r : List Cell) (i : Nat) : Cell :=
  r.getD i Cell.na

/-- Rectangularize a row to exactly `n` cells: truncate overlong rows and
pad short rows with missing markers (a DataFrame is rectangular). -/
def fitRow (n : Nat) (r : List Cell) : List Cell :=
  r.take n ++ List.replicate (n - r.length) Cell.na

/-- `df[name] = scalar`: broadcast-assign a scalar to a column, overwriting
the column if the label already exists, else appending it. -/
def setColumn (t : RawTable) (name : String) (v : Cell) : RawTable :=
  match t.header.findIdx? (fun h => h == name) with
  | some i => ⟨t.header, t.rows.map (fun r => (fitRow t.header.length r).set i v)⟩
  | none => ⟨t.header ++ [name], t.rows.map (fun r => fitRow t.header.length r ++ [v])⟩

/-- `df.rename(columns=m)`: relabel columns; labels absent from the map are
kept unchanged (pandas ignores unknown keys). -/
def renameCols (m : List (String × String)) (t : RawTable) : RawTable :=
  ⟨t.header.map (fun h => ((m.lookup h).getD h)), t.rows⟩

/-- Python's rendering of a list of strings, without the brackets:
`'A', 'B'`. -/
def pyStrList : List String → String
  | [] => ""
  | [s] => "'" ++ s ++ "'"
  | s :: rest => "'" ++ s ++ "', " ++ pyStrList rest

/-- The payload of the pandas `KeyError` raised by `df[cols]` when some
requested labels are missing: `['A', 'B'] not in index`. -/
def keyErrorMsg (missing : List String) : String :=
  "[" ++ pyStrList missing ++ "] not in index"

/-- What `str(e)` yields for that `KeyError`: Python stringifies a KeyError
as the repr of its payload, and since the payload contains single quotes
(and no double quote) the repr wraps it in double quotes. -/
def keyErrorShown (missing : List String) : String :=
  "\"" ++ keyErrorMsg missing ++ "\""

/-- Index of a column label in the header (0 if absent; callers guard). -/
def colIdx (t : RawTable) (c : String) : Nat :=
  (t.header.findIdx? (fun h => h == c)).getD 0

/-- `df[cols]`: select columns by label in the given order; raises a
`KeyError` naming exactly the missing labels if any are absent.  The
`.error` value is `str(e)` of the raised exception — for this `KeyError`
that is the repr of its payload, hence the surrounding double quotes. -/
def selectColumns (cols : List String) (t : RawTable) : Except String RawTable :=
  let missing := cols.filter (fun c => !(t.header.contains c))
  if missing = [] then
    .ok ⟨cols, t.rows.map (fun r => cols.map (fun c => cellAt r (colIdx t c)))⟩
  else
    .error (keyErrorShown missing)

/-- `pd.concat([a, b], ignore_index=True)` for two tables sharing a header. -/
def concatTables (a b : RawTable) : RawTable :=
  ⟨a.header, a.rows ++ b.rows⟩

/-- Strip leading and trailing whitespace from a character list. -/
def trimChars (l : List Char) : List Char :=
  ((l.dropWhile Char.isWhitespace).reverse.dropWhile Char.isWhitespace).reverse

/-- Split a character list on the decimal-point character. -/
def splitOnDot : List Char → List (List Char)
  | [] => [[]]
  | c :: cs =>
      let r := splitOnDot cs
      if c = '.' then [] :: r
      else
        match r with
        | h :: t => (c :: h) :: t
        | [] => [[c]]

/-- String of decimal digits to its value, `none` if empty or non-digit. -/
def parseDigits (l : List Char) : Option ℕ :=
  if l ≠ [] ∧ l.all Char.isDigit then
    some (l.foldl (fun n c => 10 * n + (c.toNat - 48)) 0)
  else none

/-- Numeric parsing as done by `pd.to_numeric` on a string cell: optional
surrounding whitespace, optional sign, decimal integer or decimal fraction.
Anything else (e.g. `"N/A"`, empty, stray text) fails to parse. -/
def parseNum (s : String) : Option ℚ :=
  let (neg, rest) :=
    match trimChars s.toList with
    | '-' :: r => (true, r)
    | '+' :: r => (false, r)
    | r => (false, r)
  let signed (q : ℚ) : ℚ := if neg then -q else q
  match splitOnDot rest with
  | [ip] =>
      match parseDigits ip with
      | some n => some (signed n)
      | none => none
  | [ip, fp] =>
      match parseDigits ip, parseDigits fp with
      | some n, some f => some (signed (n + (f : ℚ) / (10 : ℚ) ^ fp.length))
      | _, _ => none
  | _ => none

/-- `pd.to_numeric(errors='coerce')` on one cell: numbers pass through,
strings are parsed, anything unparseable becomes the missing marker NaN. -/
def toNumericCell (c : Cell) : Cell :=
  match c with
  | .num q => .num q
  | .na => .na
  | .str s =>
      match parseNum s with
      | some q => .num q
      | none => .na

/-- `fillna(0)` on one cell. -/
def fillZero (c : Cell) : Cell :=
  match c with
  | .na => .num 0
  | c => c

/-- One cleaning pass on a cell: coerce to numeric, then fill NaN with 0. -/
def cleanCell (c : Cell) : Cell :=
  fillZero (toNumericCell c)

/-- Apply `to_numeric(errors='coerce')` then `fillna(0)` to the columns of
`t` whose label is in `cols`, leaving other columns untouched. -/
def cleanColumns (cols : List String) (t : RawTable) : RawTable :=
  ⟨t.header,
   t.rows.map (fun r =>
     (t.header.zip r).map (fun p => if cols.contains p.1 then cleanCell p.2 else p.2))⟩

/-! ## The tolerant loader `load_file`

One file-like input, as seen by the five parse attempts of `load_file`.
The code rewinds the stream (`source.seek(0)`) before every attempt, so
each attempt is a full independent parse of the same bytes; we therefore
model an input by the outcome each of the five strategies would produce
on it: `.ok` a table, or `.error` the raised exception's message. -/

deriving instance DecidableEq for Except

structure FileInput where
  /-- strategy 1: `pd.read_csv(source, encoding='utf-8')` -/
  csvUtf8 : Except String RawTable
  /-- strategy 2: `pd.read_csv(source, encoding='latin1')` -/
  csvLatin1 : Except String RawTable
  /-- strategy 3: `pd.read_csv(source, sep=None, engine='python', encoding='utf-8')` -/
  csvUtf8Auto : Except String RawTable
  /-- strategy 4: `pd.read_csv(source, sep=None, engine='python', encoding='latin1')` -/
  csvLatin1Auto : Except String RawTable
  /-- strategy 5: `pd.read_excel(source)` -/
  excel : Except String RawTable
deriving DecidableEq, Repr

/-- `load_file` (src/main.py lines 34-77): try the five strategies in order,
return the first success; if all five fail, raise a ValueError carrying the
last (Excel) attempt's message. -/
def load_file (f : FileInput) : Except String RawTable :=
  match f.csvUtf8 with
  | .ok t => .ok t
  | .error _ =>
    match f.csvLatin1 with
    | .ok t => .ok t
    | .error _ =>
      match f.csvUtf8Auto with
      | .ok t => .ok t
      | .error _ =>
        match f.csvLatin1Auto with
        | .ok t => .ok t
        | .error _ =>
          match f.excel with
          | .ok t => .ok t
          | .error e => .error ("All parsing attempts failed. Last error: " ++ e)

/-! ## `load_and_clean_data` (src/main.py lines 80-145) -/

/-- The ECE rename map (src/main.py lines 92-102). -/
def ece_rename_map : List (String × String) :=
  [("Name of Professor", "Name"),
   ("Number of Journal Publications", "Journal Publications"),
   ("Number of Conference Publications", "Conference Publications"),
   ("Number of Publications (Total)", "Total Publications"),
   ("Books/Chapters Count", "Books/Chapters"),
   ("Patents Count", "Patents"),
   ("Projects Count", "Projects"),
   ("Citations Count", "Citations"),
   ("H Index Count", "H Index")]

/-- The CSE rename map (src/main.py lines 106-116). -/
def cse_rename_map : List (String × String) :=
  [("Name of professor", "Name"),
   ("Number of Journal Publications", "Journal Publications"),
   ("Number of Conference Publications", "Conference Publications"),
   ("Number of Publications (Total)", "Total Publications"),
   ("Books/Chapters (Count)", "Books/Chapters"),
   ("Patents (Count)", "Patents"),
   ("Projects (Count)", "Projects"),
   ("Citations", "Citations"),
   ("H index", "H Index")]

/-- The canonical column list (src/main.py lines 120-123). -/
def common_columns : List String :=
  ["Name", "Designation", "Journal Publications", "Conference Publications",
   "Total Publications", "Books/Chapters", "Patents", "Projects",
   "Citations", "H Index", "Department"]

/-- The columns forced to numeric (src/main.py lines 129-131). -/
def numeric_cols : List String :=
  ["Journal Publications", "Conference Publications", "Total Publications",
   "Books/Chapters", "Patents", "Projects", "Citations", "H Index"]

/-- The merge/clean core (src/main.py lines 126-139): concatenate the two
selected tables, coerce the numeric columns per cell, fill NaN with 0. -/
def merge_and_clean (a b : RawTable) : RawTable :=
  cleanColumns numeric_cols (concatTables a b)

/-- The normalization applied to the ECE file's table (src/main.py lines
88, 103): tag the department, then rename ECE source columns. -/
def normalizeEce (t : RawTable) : RawTable :=
  renameCols ece_rename_map (setColumn t "Department" (.str "ECE"))

/-- The normalization applied to the CSE file's table (src/main.py lines
89, 117): tag the department, then rename CSE source columns. -/
def normalizeCse (t : RawTable) : RawTable :=
  renameCols cse_rename_map (setColumn t "Department" (.str "CSE"))

/-- The body of the `try:` block of `load_and_clean_data`
(src/main.py lines 83-141): load both files, tag departments, rename,
select the canonical columns (pandas KeyError if any are missing — the
ECE selection is evaluated first, as in `pd.concat([df_ece[...],
df_cse[...]])`), concatenate and clean.  A raised exception is the
`.error` case and aborts the rest of the body. -/
def load_and_clean_inner (ece_file cse_file : FileInput) : Except String RawTable :=
  match load_file ece_file with
  | .error e => .error e
  | .ok df_ece =>
    match load_file cse_file with
    | .error e => .error e
    | .ok df_cse =>
      match selectColumns common_columns (normalizeEce df_ece) with
      | .error e => .error e
      | .ok sel_ece =>
        match selectColumns common_columns (normalizeCse df_cse) with
        | .error e => .error e
        | .ok sel_cse => .ok (merge_and_clean sel_ece sel_cse)

/-- Outcome of `load_and_clean_data` as seen by the caller: either a
DataFrame, or `None` after `st.error` displayed a message. -/
inductive CleanResult where
  | data (t : RawTable)
  | noneShown (msg : String)
deriving DecidableEq, Repr

/-- `load_and_clean_data` (src/main.py lines 81-145): run the pipeline;
on any exception display `"Error processing files: {e}"` and return None. -/
def load_and_clean_data (ece_file cse_file : FileInput) : CleanResult :=
  match load_and_clean_inner ece_file cse_file with
  | .ok t => .data t
  | .error e => .noneShown ("Error processing files: " ++ e)

/-! ## Sidebar upload handling (src/main.py lines 159-183) -/

/-- An uploaded file: its name plus its parseable content. -/
structure UFile where
  name : String
  content : FileInput
deriving DecidableEq, Repr

/-- Python's `needle in hay` substring test on character lists. -/
def containsSeq (needle : List Char) : List Char → Bool
  | [] => needle.isEmpty
  | c :: cs => needle.isPrefixOf (c :: cs) || containsSeq needle cs

/-- ASCII upper-casing of one character (Python `str.upper` on ASCII). -/
def upChar (c : Char) : Char :=
  if c.isLower then Char.ofNat (c.toNat - 32) else c

/-- `"ECE" in f.name.upper()`: case-insensitive substring test. -/
def nameHasECE (f : UFile) : Bool :=
  containsSeq "ECE".toList (f.name.toList.map upChar)

/-- `"CSE" in f.name.upper()` (only reached when `nameHasECE` is false,
because of the `elif`). -/
def nameHasCSE (f : UFile) : Bool :=
  containsSeq "CSE".toList (f.name.toList.map upChar)

/-- One iteration of the tagging loop (src/main.py lines 168-173): a file
whose uppercased name contains "ECE" becomes `file_ece`, else one
containing "CSE" becomes `file_cse`; later matches overwrite earlier ones. -/
def tagStep (acc : Option UFile × Option UFile) (f : UFile) :
    Option UFile × Option UFile :=
  if nameHasECE f then (some f, acc.2)
  else if nameHasCSE f then (acc.1, some f)
  else acc

/-- The tagging loop over all uploaded files. -/
def assignFiles (files : List UFile) : Option UFile × Option UFile :=
  files.foldl tagStep (none, none)

/-- A file that would be tagged CSE: its name matches "CSE" but not "ECE"
(the `elif` gives "ECE" priority). -/
def cseTagged (f : UFile) : Bool :=
  !nameHasECE f && nameHasCSE f

/-- What the sidebar does with an upload set. -/
inductive UploadOutcome where
  /-- both files identified: `load_and_clean_data` runs on this pair. -/
  | computed (result : CleanResult)
  /-- `st.warning`: "Please upload TWO files (one for ECE, one for CSE)." -/
  | warnUploadTwo
  /-- `st.error`: "Could not distinguish files. Ensure filenames contain 'ECE' and 'CSE'." -/
  | errCannotDistinguish
  /-- `st.info`: "Waiting for upload..." (no files uploaded) -/
  | infoWaiting
deriving DecidableEq, Repr

/-- The sidebar logic (src/main.py lines 166-183): with no upload show the
waiting message; otherwise tag the files; if both departments were matched
run `load_and_clean_data`, else warn (fewer than two files) or error. -/
def sidebarOutcome (files : List UFile) : UploadOutcome :=
  if files = [] then .infoWaiting
  else
    match assignFiles files with
    | (some fe, some fc) => .computed (load_and_clean_data fe.content fc.content)
    | _ => if files.length < 2 then .warnUploadTwo else .errCannotDistinguish

/-- Whether an outcome produced a merged table (a CanonicalTable). -/
def producedTable (o : UploadOutcome) : Bool :=
  match o with
  | .computed (.data _) => true
  | _ => false

/-! ## `st.cache_data` memoization (src/main.py line 80)

`@st.cache_data` memoizes `load_and_clean_data` on the (hashed contents
of the) argument pair: a repeated call with an identical pair returns the
stored result without executing the function body.  The decorator itself
is library code; `cachedCall` models its documented behavior as an
explicit cache, and reports whether the expensive body executed. -/

/-- One cached invocation: look the argument pair up in the cache; on a hit
return the stored result (body not executed), on a miss run
`load_and_clean_data`, store and return it.  The `Bool` is true iff the
expensive body executed. -/
def cachedCall (cache : List ((FileInput × FileInput) × CleanResult))
    (k : FileInput × FileInput) :
    CleanResult × List ((FileInput × FileInput) × CleanResult) × Bool :=
  match cache.lookup k with
  | some v => (v, cache, false)
  | none =>
      let v := load_and_clean_data k.1 k.2
      (v, (k, v) :: cache, true)

/-! ## General lemmas about the cleaning pass -/

/-- Cleaning a cell always yields a number. -/
theorem cleanCell_isNum (c : Cell) : ∃ q : ℚ, cleanCell c = .num q := by
  cases c with
  | num q => exact ⟨q, rfl⟩
  | na => exact ⟨0, rfl⟩
  | str s =>
      cases h : parseNum s with
      | none => exact ⟨0, by simp [cleanCell, toNumericCell, fillZero, h]⟩
      | some q => exact ⟨q, by simp [cleanCell, toNumericCell, fillZero, h]⟩

/-- Cleaning leaves a numeric cell unchanged. -/
theorem cleanCell_num (q : ℚ) : cleanCell (.num q) = .num q := rfl

/-- Cleaning is idempotent on cells. -/
theorem cleanCell_idem (c : Cell) : cleanCell (cleanCell c) = cleanCell c := by
  obtain ⟨q, hq⟩ := cleanCell_isNum c
  rw [hq, cleanCell_num]

/-- Cleaning preserves the header. -/
theorem cleanColumns_header (cols : List String) (t : RawTable) :
    (cleanColumns cols t).header = t.header := rfl

/-- The cleaned form of one row. -/
def cleanRowWith (header : List String) (cols : List String) (r : List Cell) : List Cell :=
  (header.zip r).map (fun p => if cols.contains p.1 then cleanCell p.2 else p.2)

theorem cleanColumns_rows (cols : List String) (t : RawTable) :
    (cleanColumns cols t).rows = t.rows.map (cleanRowWith t.header cols) := rfl

/-- Cleaning a row of already-numeric (in the cleaned columns) cells is the
identity, provided the row is as long as the header. -/
theorem cleanRowWith_of_clean (header cols : List String) (r : List Cell)
    (hlen : r.length = header.length)
    (hclean : ∀ i, i < r.length → cols.contains (header.getD i "") →
      ∃ q : ℚ, r.getD i .na = .num q) :
    cleanRowWith header cols r = r := by
  unfold cleanRowWith
  apply List.ext_getElem
  · simp [List.length_zip, hlen]
  · intro i h1 h2
    have hz : i < (header.zip r).length := by
      simpa [List.length_zip, hlen] using h2
    simp only [List.getElem_map, List.getElem_zip]
    have hih : i < header.length := by omega
    by_cases hc : cols.contains header[i]
    · have := hclean i h2 (by simpa [List.getD_eq_getElem?_getD, List.getElem?_eq_getElem hih] using hc)
      obtain ⟨q, hq⟩ := this
      have hrq : r[i] = Cell.num q := by
        simpa [List.getD_eq_getElem?_getD, List.getElem?_eq_getElem h2] using hq
      simp [hc, hrq, cleanCell_num]
    · exact if_neg hc

/-! ## Shape lemmas for the pipeline -/

theorem selectColumns_ok (cols : List String) (t s : RawTable)
    (h : selectColumns cols t = .ok s) :
    s.header = cols ∧
      s.rows = t.rows.map (fun r => cols.map (fun c => cellAt r (colIdx t c))) := by
  unfold selectColumns at h
  by_cases hm : cols.filter (fun c => !(t.header.contains c)) = []
  · simp only [hm, if_pos] at h
    cases h
    exact ⟨rfl, rfl⟩
  · simp only [if_neg hm] at h
    cases h

theorem selectColumns_ok_row_length (cols : List String) (t s : RawTable)
    (h : selectColumns cols t = .ok s) :
    ∀ r ∈ s.rows, r.length = cols.length := by
  obtain ⟨-, hrows⟩ := selectColumns_ok cols t s h
  intro r hr
  rw [hrows] at hr
  obtain ⟨r0, -, rfl⟩ := List.mem_map.mp hr
  simp

/-- A successful `load_and_clean_data` run decomposes into: both loads
succeed, both canonical-column selections succeed, and the result is the
cleaned concatenation of the two selected tables. -/
theorem load_and_clean_inner_ok (ece_file cse_file : FileInput) (t : RawTable)
    (h : load_and_clean_inner ece_file cse_file = .ok t) :
    ∃ ta tb sa sb,
      load_file ece_file = .ok ta ∧
      load_file cse_file = .ok tb ∧
      selectColumns common_columns (normalizeEce ta) = .ok sa ∧
      selectColumns common_columns (normalizeCse tb) = .ok sb ∧
      t = merge_and_clean sa sb := by
  unfold load_and_clean_inner at h
  cases h1 : load_file ece_file with
  | error e => rw [h1] at h; cases h
  | ok ta =>
    rw [h1] at h
    cases h2 : load_file cse_file with
    | error e => rw [h2] at h; cases h
    | ok tb =>
      rw [h2] at h
      dsimp only at h
      cases h3 : selectColumns common_columns (normalizeEce ta) with
      | error e => rw [h3] at h; cases h
      | ok sa =>
        rw [h3] at h
        cases h4 : selectColumns common_columns (normalizeCse tb) with
        | error e => rw [h4] at h; cases h
        | ok sb =>
          rw [h4] at h
          cases h
          exact ⟨ta, tb, sa, sb, rfl, rfl, h3, h4, rfl⟩

/-- `fitRow` always produces exactly `n` cells. -/
theorem fitRow_length (n : Nat) (r : List Cell) : (fitRow n r).length = n := by
  simp [fitRow]
  omega

/-! ## Concrete inputs used by witnesses and counterexamples -/

/-- The spec's scenario ECE file: one professor, all metrics as strings. -/
def exEceTable : RawTable :=
  ⟨["Name of Professor", "Designation", "Number of Journal Publications",
    "Number of Conference Publications", "Number of Publications (Total)",
    "Books/Chapters Count", "Patents Count", "Projects Count",
    "Citations Count", "H Index Count"],
   [[.str "A. Rao", .str "Professor", .str "5", .str "3", .str "8",
     .str "1", .str "2", .str "1", .str "40", .str "12"]]⟩

/-- The spec's scenario CSE file: one professor, with an `"N/A"` cell. -/
def exCseTable : RawTable :=
  ⟨["Name of professor", "Designation", "Number of Journal Publications",
    "Number of Conference Publications", "Number of Publications (Total)",
    "Books/Chapters (Count)", "Patents (Count)", "Projects (Count)",
    "Citations", "H index"],
   [[.str "B. Iyer", .str "Asst. Professor", .str "N/A", .str "2", .str "6",
     .str "0", .str "1", .str "3", .str "15", .str "4"]]⟩

/-- An ECE file whose Journal Publications cell is the negative number "-5". -/
def exEceNegTable : RawTable :=
  ⟨["Name of Professor", "Designation", "Number of Journal Publications",
    "Number of Conference Publications", "Number of Publications (Total)",
    "Books/Chapters Count", "Patents Count", "Projects Count",
    "Citations Count", "H Index Count"],
   [[.str "C. Negative", .str "Professor", .str "-5", .str "3", .str "8",
     .str "1", .str "2", .str "1", .str "40", .str "12"]]⟩

/-- An ECE file lacking the `Designation` column. -/
def exEceMissingTable : RawTable :=
  ⟨["Name of Professor", "Number of Journal Publications",
    "Number of Conference Publications", "Number of Publications (Total)",
    "Books/Chapters Count", "Patents Count", "Projects Count",
    "Citations Count", "H Index Count"],
   [[.str "D. Short", .str "4", .str "3", .str "7",
     .str "1", .str "2", .str "1", .str "40", .str "12"]]⟩

/-- An ECE file that already carries a `Department` column with garbage. -/
def exEceDeptTable : RawTable :=
  ⟨["Name of Professor", "Designation", "Number of Journal Publications",
    "Number of Conference Publications", "Number of Publications (Total)",
    "Books/Chapters Count", "Patents Count", "Projects Count",
    "Citations Count", "H Index Count", "Department"],
   [[.str "E. Tagged", .str "Professor", .str "5", .str "3", .str "8",
     .str "1", .str "2", .str "1", .str "40", .str "12", .str "Physics"]]⟩

/-- A file input whose first (UTF-8 CSV) parse succeeds with table `t`. -/
def fileOk (t : RawTable) : FileInput :=
  ⟨.ok t, .error "latin1 failed", .error "auto utf8 failed",
   .error "auto latin1 failed", .error "excel failed"⟩

/-- A file input parseable only by strategy 3 (auto-delimiter, UTF-8). -/
def fileAutoOnly (t : RawTable) : FileInput :=
  ⟨.error "Error tokenizing data. C error: Expected 1 fields in line 2, saw 10",
   .error "Error tokenizing data. C error: Expected 1 fields in line 2, saw 10",
   .ok t,
   .error "latin1 auto failed", .error "excel failed"⟩

/-- A file input on which every parse strategy fails. -/
def fileBad : FileInput :=
  ⟨.error "bad utf8", .error "bad latin1", .error "bad auto utf8",
   .error "bad auto latin1", .error "Excel file format cannot be determined"⟩

def exEceFile : FileInput := fileOk exEceTable
def exCseFile : FileInput := fileOk exCseTable

/-- The merged table of the spec's scenario pair. -/
def exMerged : RawTable :=
  match load_and_clean_data exEceFile exCseFile with
  | .data t => t
  | _ => ⟨[], []⟩

/-! ## C2: loader strategy ordering -/

set_option linter.unnecessarySeqFocus false in
/-- C2: `load_file` tries the five parse strategies in the fixed order
CSV/UTF-8, CSV/Latin-1, CSV/UTF-8/auto-delimiter, CSV/Latin-1/auto-delimiter,
Excel; it returns the result of the first strategy that succeeds, and it
fails if and only if all five strategies fail, in which case the raised
error carries the last (Excel) failure's message. -/
theorem load_file_strategy_order (f : FileInput) :
    (∀ t, f.csvUtf8 = .ok t → load_file f = .ok t) ∧
    (∀ e1 t, f.csvUtf8 = .error e1 → f.csvLatin1 = .ok t → load_file f = .ok t) ∧
    (∀ e1 e2 t, f.csvUtf8 = .error e1 → f.csvLatin1 = .error e2 →
      f.csvUtf8Auto = .ok t → load_file f = .ok t) ∧
    (∀ e1 e2 e3 t, f.csvUtf8 = .error e1 → f.csvLatin1 = .error e2 →
      f.csvUtf8Auto = .error e3 → f.csvLatin1Auto = .ok t → load_file f = .ok t) ∧
    (∀ e1 e2 e3 e4 t, f.csvUtf8 = .error e1 → f.csvLatin1 = .error e2 →
      f.csvUtf8Auto = .error e3 → f.csvLatin1Auto = .error e4 →
      f.excel = .ok t → load_file f = .ok t) ∧
    (∀ e1 e2 e3 e4 e5, f.csvUtf8 = .error e1 → f.csvLatin1 = .error e2 →
      f.csvUtf8Auto = .error e3 → f.csvLatin1Auto = .error e4 →
      f.excel = .error e5 →
      load_file f = .error ("All parsing attempts failed. Last error: " ++ e5)) ∧
    ((∃ e, load_file f = .error e) ↔
      ((∃ e, f.csvUtf8 = .error e) ∧ (∃ e, f.csvLatin1 = .error e) ∧
       (∃ e, f.csvUtf8Auto = .error e) ∧ (∃ e, f.csvLatin1Auto = .error e) ∧
       (∃ e, f.excel = .error e))) := by
  obtain ⟨s1, s2, s3, s4, s5⟩ := f
  cases s1 <;> cases s2 <;> cases s3 <;> cases s4 <;> cases s5 <;>
    simp [load_file] <;> intros <;> simp_all

/-- C2 witness: a file parseable only under strategy 3 (auto-delimiter,
UTF-8) loads successfully via strategy 3. -/
theorem load_file_strategy_order_witness :
    load_file (fileAutoOnly exEceTable) = .ok exEceTable :=
  (load_file_strategy_order (fileAutoOnly exEceTable)).2.2.1
    "Error tokenizing data. C error: Expected 1 fields in line 2, saw 10"
    "Error tokenizing data. C error: Expected 1 fields in line 2, saw 10"
    exEceTable rfl rfl rfl

/-! ## C5: result caching -/

/-- C5: the memoized merge step.  A first call on a pair of input files not
in the cache executes `load_and_clean_data` and stores the result under the
pair; a second call with the identical pair returns a value equal to the
first result without executing the expensive body again. -/
theorem cache_memoizes (cache : List ((FileInput × FileInput) × CleanResult))
    (k : FileInput × FileInput) (hmiss : cache.lookup k = none) :
    (cachedCall cache k).1 = load_and_clean_data k.1 k.2 ∧
    (cachedCall cache k).2.2 = true ∧
    (cachedCall (cachedCall cache k).2.1 k).1 = (cachedCall cache k).1 ∧
    (cachedCall (cachedCall cache k).2.1 k).2.2 = false := by
  simp only [cachedCall, hmiss]
  simp [List.lookup]

/-- C5 witness: the memoization facts at the concrete scenario input pair,
starting from an empty cache. -/
theorem cache_memoizes_witness :
    (cachedCall [] (exEceFile, exCseFile)).1 =
      load_and_clean_data exEceFile exCseFile ∧
    (cachedCall [] (exEceFile, exCseFile)).2.2 = true ∧
    (cachedCall (cachedCall [] (exEceFile, exCseFile)).2.1 (exEceFile, exCseFile)).1 =
      (cachedCall [] (exEceFile, exCseFile)).1 ∧
    (cachedCall (cachedCall [] (exEceFile, exCseFile)).2.1 (exEceFile, exCseFile)).2.2 = false :=
  cache_memoizes [] (exEceFile, exCseFile) rfl

/-! ## Row-level structure of the cleaning pass -/

theorem cleanRowWith_length (header cols : List String) (r : List Cell) :
    (cleanRowWith header cols r).length = min header.length r.length := by
  simp [cleanRowWith]

theorem cleanRowWith_getElem (header cols : List String) (r : List Cell)
    (i : Nat) (hh : i < header.length) (hr : i < r.length)
    (hcl : i < (cleanRowWith header cols r).length) :
    (cleanRowWith header cols r)[i] =
      if cols.contains (header[i]) then cleanCell (r[i]) else r[i] := by
  unfold cleanRowWith
  simp [List.getElem_zip]

theorem cleanRowWith_idem (header cols : List String) (r : List Cell) :
    cleanRowWith header cols (cleanRowWith header cols r) =
      cleanRowWith header cols r := by
  apply List.ext_getElem
  · rw [cleanRowWith_length, cleanRowWith_length]
    omega
  · intro i h1 h2
    have hh : i < header.length := by
      rw [cleanRowWith_length] at h2
      omega
    have hr : i < r.length := by
      rw [cleanRowWith_length] at h2
      omega
    have hcr : i < (cleanRowWith header cols r).length := h2
    rw [cleanRowWith_getElem header cols (cleanRowWith header cols r) i hh hcr h1,
        cleanRowWith_getElem header cols r i hh hr h2]
    by_cases hc : header[i] ∈ cols
    · simp [hc, cleanCell_idem]
    · simp [hc]

theorem cleanColumns_idem (cols : List String) (t : RawTable) :
    cleanColumns cols (cleanColumns cols t) = cleanColumns cols t := by
  cases t with
  | mk header rows =>
    simp only [cleanColumns, List.map_map, RawTable.mk.injEq, true_and]
    apply List.map_congr_left
    intro r hr
    exact cleanRowWith_idem header cols r

/-! ## C6: idempotence of the cleaning pass -/

/-- C6: the cleaning pass (per-cell numeric coercion to NaN, then filling
NaN with zero, over the numeric metric columns) is idempotent: applying it
twice to any table equals applying it once, and a cell that is already
numeric (in particular zero) is unchanged by it. -/
theorem cleaning_pass_idempotent :
    (∀ t, cleanColumns numeric_cols (cleanColumns numeric_cols t) =
            cleanColumns numeric_cols t) ∧
    (∀ q : ℚ, cleanCell (.num q) = .num q) ∧
    (∀ c, cleanCell (cleanCell c) = cleanCell c) :=
  ⟨fun t => cleanColumns_idem numeric_cols t, fun q => cleanCell_num q, cleanCell_idem⟩

/-! ## C7: unparseable metric cells degrade to zero; other errors surface -/

/-- C7: a metric cell that cannot be interpreted as a number (the literal
`"N/A"`, stray text, an empty cell, a missing value) equals exactly 0 after
cleaning; and this per-cell degrade is the only swallowed failure — any
error raised inside the pipeline is surfaced via the displayed
`"Error processing files: ..."` message, not silently dropped. -/
theorem coercion_degrades_to_zero :
    (∀ s, parseNum s = none → cleanCell (.str s) = .num 0) ∧
    (cleanCell (.str "N/A") = .num 0) ∧
    (cleanCell .na = .num 0) ∧
    (∀ ece cse e, load_and_clean_inner ece cse = .error e →
      load_and_clean_data ece cse = .noneShown ("Error processing files: " ++ e)) := by
  refine ⟨?_, rfl, rfl, ?_⟩
  · intro s hs
    simp [cleanCell, toNumericCell, hs, fillZero]
  · intro ece cse e he
    simp [load_and_clean_data, he]

/-- C7 witness: the `"N/A"` scenario cell becomes 0, and a file on which
every parse strategy fails surfaces a displayed error message. -/
theorem coercion_degrades_to_zero_witness :
    cleanCell (.str "N/A") = .num 0 ∧
    load_and_clean_data fileBad exCseFile =
      .noneShown ("Error processing files: " ++
        "All parsing attempts failed. Last error: Excel file format cannot be determined") :=
  ⟨coercion_degrades_to_zero.2.1,
   coercion_degrades_to_zero.2.2.2 fileBad exCseFile
     "All parsing attempts failed. Last error: Excel file format cannot be determined" rfl⟩

/-! ## C9: `load_and_clean_data` never propagates an exception -/

/-- C9: for every pair of inputs, `load_and_clean_data` either returns a
table or displays an error and returns None — the catch-all `except` turns
every pipeline failure (loading, renaming, selection, coercion) into a
displayed message plus a `None` return, and nothing else escapes. -/
theorem load_and_clean_never_raises (ece cse : FileInput) :
    ((∃ t, load_and_clean_data ece cse = .data t) ∨
     (∃ m, load_and_clean_data ece cse = .noneShown m)) ∧
    (∀ e, load_and_clean_inner ece cse = .error e →
      load_and_clean_data ece cse = .noneShown ("Error processing files: " ++ e)) ∧
    (∀ t, load_and_clean_inner ece cse = .ok t →
      load_and_clean_data ece cse = .data t) := by
  unfold load_and_clean_data
  cases h : load_and_clean_inner ece cse with
  | ok t => exact ⟨.inl ⟨t, rfl⟩, by simp, by simp⟩
  | error e => exact ⟨.inr ⟨"Error processing files: " ++ e, rfl⟩, by simp, by simp⟩

/-- C9 witness: a run in which every load strategy fails ends in a
displayed message and None; the scenario run ends in a table. -/
theorem load_and_clean_never_raises_witness :
    load_and_clean_data fileBad fileBad =
      .noneShown ("Error processing files: " ++
        "All parsing attempts failed. Last error: Excel file format cannot be determined") ∧
    load_and_clean_data exEceFile exCseFile = .data exMerged :=
  ⟨(load_and_clean_never_raises fileBad fileBad).2.1
     "All parsing attempts failed. Last error: Excel file format cannot be determined" rfl,
   (load_and_clean_never_raises exEceFile exCseFile).2.2 exMerged rfl⟩

/-! ## Shape of the merged table -/

theorem merge_and_clean_header (a b : RawTable) :
    (merge_and_clean a b).header = a.header := rfl

theorem merge_and_clean_rows (a b : RawTable) :
    (merge_and_clean a b).rows =
      (a.rows ++ b.rows).map (cleanRowWith a.header numeric_cols) := rfl

/-- A `.data` result comes from a successful inner pipeline run. -/
theorem load_and_clean_data_data (ece cse : FileInput) (t : RawTable)
    (h : load_and_clean_data ece cse = .data t) :
    load_and_clean_inner ece cse = .ok t := by
  unfold load_and_clean_data at h
  cases hin : load_and_clean_inner ece cse with
  | ok u => rw [hin] at h; cases h; rfl
  | error e => rw [hin] at h; cases h

/-! ## C1: state of the metric columns after cleaning -/

def exEceNegFile : FileInput := fileOk exEceNegTable

/-- C1 counterexample: with an ECE input whose Journal Publications cell is
the string "-5", the merged table's corresponding cell is the negative
number -5, so not every cleaned metric cell is non-negative. -/
theorem clean_nonneg_counterexample :
    (match load_and_clean_data exEceNegFile exCseFile with
     | .data t => cellAt (t.rows.getD 0 []) 2
     | _ => .na) = .num (-5) ∧ (-5 : ℚ) < 0 := by
  constructor
  · rfl
  · norm_num

/-- C1 amended: after a successful `load_and_clean_data` run, every cell of
the numeric metric columns is a (finite) number — never a string and never
the missing marker — though not necessarily non-negative. -/
theorem clean_metric_cells_numeric (ece cse : FileInput) (t : RawTable)
    (h : load_and_clean_data ece cse = .data t) :
    t.header = common_columns ∧
    ∀ r ∈ t.rows, r.length = common_columns.length ∧
      ∀ i, i < r.length → numeric_cols.contains (common_columns.getD i "") →
        ∃ q : ℚ, r.getD i .na = .num q := by
  have hin := load_and_clean_data_data ece cse t h
  obtain ⟨ta, tb, sa, sb, -, -, hsa, hsb, rfl⟩ :=
    load_and_clean_inner_ok ece cse t hin
  obtain ⟨hsaH, -⟩ := selectColumns_ok _ _ _ hsa
  have hlenA := selectColumns_ok_row_length _ _ _ hsa
  have hlenB := selectColumns_ok_row_length _ _ _ hsb
  refine ⟨by rw [merge_and_clean_header, hsaH], ?_⟩
  intro r hr
  rw [merge_and_clean_rows] at hr
  obtain ⟨r0, hr0, rfl⟩ := List.mem_map.mp hr
  have hr0len : r0.length = common_columns.length := by
    rcases List.mem_append.mp hr0 with hA | hB
    · exact hlenA r0 hA
    · exact hlenB r0 hB
  have hlen : (cleanRowWith sa.header numeric_cols r0).length = common_columns.length := by
    rw [cleanRowWith_length, hsaH, hr0len]
    omega
  refine ⟨hlen, ?_⟩
  intro i hi hcont
  rw [hlen] at hi
  have hih : i < sa.header.length := by rw [hsaH]; exact hi
  have hir : i < r0.length := by rw [hr0len]; exact hi
  have hicl : i < (cleanRowWith sa.header numeric_cols r0).length := by
    rw [cleanRowWith_length]
    omega
  have hgd : (cleanRowWith sa.header numeric_cols r0).getD i .na =
      (cleanRowWith sa.header numeric_cols r0)[i] :=
    List.getD_eq_getElem _ _ hicl
  rw [hgd, cleanRowWith_getElem sa.header numeric_cols r0 i hih hir hicl]
  have hcc : sa.header[i] = common_columns.getD i "" := by
    have h2 : sa.header[i] = common_columns[i] := by
      congr 1
    rw [h2, List.getD_eq_getElem _ _ hi]
  rw [hcc]
  simp only [hcont, if_true]
  exact cleanCell_isNum _

/-- C1 amended witness: the amended statement at the scenario input pair. -/
theorem clean_metric_cells_numeric_witness :
    exMerged.header = common_columns ∧
    ∀ r ∈ exMerged.rows, r.length = common_columns.length ∧
      ∀ i, i < r.length → numeric_cols.contains (common_columns.getD i "") →
        ∃ q : ℚ, r.getD i .na = .num q :=
  clean_metric_cells_numeric exEceFile exCseFile exMerged rfl

/-! ## C3: merging preserves rows -/

/-- Whether a cell is a number. -/
def Cell.isNumB : Cell → Bool
  | .num _ => true
  | _ => false

/-- A well-formed canonical row: one cell per canonical column, with every
numeric metric cell already numeric. -/
def wellFormedRow (r : List Cell) : Prop :=
  r.length = common_columns.length ∧
  ∀ i, i < r.length → numeric_cols.contains (common_columns.getD i "") →
    (r.getD i .na).isNumB = true

/-- A well-formed normalized table: canonical header and well-formed rows. -/
def wellFormedTable (t : RawTable) : Prop :=
  t.header = common_columns ∧ ∀ r ∈ t.rows, wellFormedRow r

/-- C3: for well-formed normalized inputs, the merged table is exactly
table_a's rows followed by table_b's rows — length is the sum of the two
input row counts, no row dropped, duplicated, or altered (duplicate Names
are preserved as separate rows). -/
theorem merge_concatenates_rows (a b : RawTable)
    (ha : wellFormedTable a) (hb : wellFormedTable b) :
    (merge_and_clean a b).rows = a.rows ++ b.rows ∧
    (merge_and_clean a b).rows.length = a.rows.length + b.rows.length := by
  have key : ∀ r ∈ a.rows ++ b.rows, cleanRowWith a.header numeric_cols r = r := by
    intro r hr
    have hwf : wellFormedRow r := by
      rcases List.mem_append.mp hr with h | h
      · exact ha.2 r h
      · exact hb.2 r h
    apply cleanRowWith_of_clean
    · rw [hwf.1, ha.1]
    · intro i hi hcont
      rw [ha.1] at hcont
      have hnum := hwf.2 i hi hcont
      cases hc : r.getD i .na with
      | num q => exact ⟨q, rfl⟩
      | str s => rw [hc] at hnum; cases hnum
      | na => rw [hc] at hnum; cases hnum
  have hrows : (merge_and_clean a b).rows = a.rows ++ b.rows := by
    rw [merge_and_clean_rows]
    have : (a.rows ++ b.rows).map (cleanRowWith a.header numeric_cols) =
        (a.rows ++ b.rows).map id := List.map_congr_left (fun r hr => key r hr)
    rw [this, List.map_id]
  exact ⟨hrows, by rw [hrows, List.length_append]⟩

/-- Two concrete well-formed canonical tables. -/
def exCleanA : RawTable :=
  ⟨common_columns,
   [[.str "A. Rao", .str "Professor", .num 5, .num 3, .num 8,
     .num 1, .num 2, .num 1, .num 40, .num 12, .str "ECE"],
    [.str "A. Rao", .str "Professor", .num 5, .num 3, .num 8,
     .num 1, .num 2, .num 1, .num 40, .num 12, .str "ECE"]]⟩

def exCleanB : RawTable :=
  ⟨common_columns,
   [[.str "B. Iyer", .str "Asst. Professor", .num 0, .num 2, .num 6,
     .num 0, .num 1, .num 3, .num 15, .num 4, .str "CSE"]]⟩

/-- C3 witness: the concatenation facts at concrete well-formed tables
(including a duplicated Name, preserved as two rows). -/
theorem merge_concatenates_rows_witness :
    (merge_and_clean exCleanA exCleanB).rows = exCleanA.rows ++ exCleanB.rows ∧
    (merge_and_clean exCleanA exCleanB).rows.length =
      exCleanA.rows.length + exCleanB.rows.length :=
  merge_concatenates_rows exCleanA exCleanB
    (by refine ⟨rfl, ?_⟩
        intro r hr
        simp only [exCleanA, List.mem_cons, List.not_mem_nil, or_false] at hr
        rcases hr with rfl | rfl <;>
          exact ⟨rfl, by decide⟩)
    (by refine ⟨rfl, ?_⟩
        intro r hr
        simp only [exCleanB, List.mem_cons, List.not_mem_nil, or_false] at hr
        rcases hr with rfl
        exact ⟨rfl, by decide⟩)

/-! ## C4: schema errors -/

theorem containsSeq_here (n post : List Char) : containsSeq n (n ++ post) = true := by
  cases n with
  | nil => cases post <;> simp [containsSeq, List.isPrefixOf]
  | cons a as =>
      have hpre : (a :: as).isPrefixOf ((a :: as) ++ post) = true := by
        simp [List.isPrefixOf_iff_prefix, List.prefix_append]
      calc containsSeq (a :: as) ((a :: as) ++ post)
          = ((a :: as).isPrefixOf ((a :: as) ++ post) || containsSeq (a :: as) (as ++ post)) := rfl
        _ = true := by rw [hpre]; simp

theorem containsSeq_cons_of (n : List Char) (c : Char) (h : List Char)
    (hc : containsSeq n h = true) : containsSeq n (c :: h) = true := by
  cases h with
  | nil =>
      have hn : n = [] := by simpa [containsSeq, List.isEmpty_iff] using hc
      subst hn
      rfl
  | cons d ds =>
      calc containsSeq n (c :: d :: ds)
          = (n.isPrefixOf (c :: d :: ds) || containsSeq n (d :: ds)) := rfl
        _ = true := by rw [hc]; simp

theorem containsSeq_of_parts (pre n post : List Char) :
    containsSeq n (pre ++ (n ++ post)) = true := by
  induction pre with
  | nil => simpa using containsSeq_here n post
  | cons c cs ih => simpa [List.cons_append] using containsSeq_cons_of n c _ ih

/-- Every missing label occurs verbatim inside `pyStrList missing`. -/
theorem field_in_pyStrList (missing : List String) (c : String) (hc : c ∈ missing) :
    ∃ pre post, (pyStrList missing).toList = pre ++ (c.toList ++ post) := by
  induction missing with
  | nil => cases hc
  | cons s rest ih =>
      cases rest with
      | nil =>
          rcases List.mem_singleton.mp hc with rfl
          exact ⟨"'".toList, "'".toList, by simp [pyStrList]⟩
      | cons s2 rest2 =>
          rcases List.mem_cons.mp hc with rfl | hmem
          · refine ⟨"'".toList, ("', " ++ pyStrList (s2 :: rest2)).toList, ?_⟩
            show (pyStrList (c :: s2 :: rest2)).toList = _
            simp [pyStrList]
          · obtain ⟨pre, post, hps⟩ := ih hmem
            refine ⟨("'" ++ s ++ "', ").toList ++ pre, post, ?_⟩
            have hps' : (pyStrList (s2 :: rest2)).data = pre ++ (c.data ++ post) := hps
            show (pyStrList (s :: s2 :: rest2)).toList = _
            simp only [pyStrList]
            simp [hps']

/-- Every missing label occurs verbatim inside the surfaced error message. -/
theorem msg_contains_field (missing : List String) (c : String) (hc : c ∈ missing) :
    containsSeq c.toList
      ("Error processing files: " ++ keyErrorShown missing).toList = true := by
  obtain ⟨pre, post, hps⟩ := field_in_pyStrList missing c hc
  have hps' : (pyStrList missing).data = pre ++ (c.data ++ post) := hps
  have hmsg : ("Error processing files: " ++ keyErrorShown missing).toList =
      ("Error processing files: ".toList ++ "\"[".toList ++ pre) ++
        (c.toList ++ (post ++ "] not in index\"".toList)) := by
    simp [keyErrorShown, keyErrorMsg, hps']
  rw [hmsg]
  exact containsSeq_of_parts _ _ _

def exEceMissingFile : FileInput := fileOk exEceMissingTable

/-- A CSE file lacking the `Designation` column. -/
def exCseMissingTable : RawTable :=
  ⟨["Name of professor", "Number of Journal Publications",
    "Number of Conference Publications", "Number of Publications (Total)",
    "Books/Chapters (Count)", "Patents (Count)", "Projects (Count)",
    "Citations", "H index"],
   [[.str "F. NoTitle", .str "2", .str "1", .str "3",
     .str "0", .str "0", .str "1", .str "9", .str "3"]]⟩

def exCseMissingFile : FileInput := fileOk exCseMissingTable

/-- C4 counterexample: for an ECE file lacking the Designation column, the
one surfaced message is the stringified pandas KeyError (the repr-quoted
payload), which names the missing field but contains no department name —
neither "ECE"/"ece" nor "CSE". -/
theorem schema_error_counterexample :
    load_and_clean_data exEceMissingFile exCseFile =
      .noneShown "Error processing files: \"['Designation'] not in index\"" ∧
    containsSeq "ECE".toList
      "Error processing files: \"['Designation'] not in index\"".toList = false ∧
    containsSeq "ece".toList
      "Error processing files: \"['Designation'] not in index\"".toList = false ∧
    containsSeq "CSE".toList
      "Error processing files: \"['Designation'] not in index\"".toList = false :=
  ⟨rfl, rfl, rfl, rfl⟩

/-- C4 amended: for every input file from which some required canonical
column cannot be produced, the pipeline fails at the column-selection step
— before any later access — and surfaces the stringified pandas KeyError
(`"[<missing>] not in index"`, repr-quoted), which names every missing
field but not the department; `load_and_clean_data` returns None with that
displayed message.  The ECE selection is evaluated first, so its missing
columns surface when it is deficient; otherwise the CSE file's missing
columns surface. -/
theorem schema_error_surfaced (ece cse : FileInput) (ta tb : RawTable)
    (h1 : load_file ece = .ok ta) (h2 : load_file cse = .ok tb) :
    (∀ missing, missing =
        common_columns.filter (fun c => !((normalizeEce ta).header.contains c)) →
      missing ≠ [] →
      load_and_clean_data ece cse =
        .noneShown ("Error processing files: " ++ keyErrorShown missing) ∧
      ∀ c ∈ missing,
        containsSeq c.toList
          ("Error processing files: " ++ keyErrorShown missing).toList = true) ∧
    (∀ missing,
      common_columns.filter (fun c => !((normalizeEce ta).header.contains c)) = [] →
      missing =
        common_columns.filter (fun c => !((normalizeCse tb).header.contains c)) →
      missing ≠ [] →
      load_and_clean_data ece cse =
        .noneShown ("Error processing files: " ++ keyErrorShown missing) ∧
      ∀ c ∈ missing,
        containsSeq c.toList
          ("Error processing files: " ++ keyErrorShown missing).toList = true) := by
  constructor
  · intro missing hmiss hne
    have hsel : selectColumns common_columns (normalizeEce ta) =
        .error (keyErrorShown missing) := by
      unfold selectColumns
      rw [← hmiss]
      simp [hne]
    refine ⟨?_, fun c hc => msg_contains_field missing c hc⟩
    unfold load_and_clean_data load_and_clean_inner
    rw [h1, h2]
    dsimp only
    rw [hsel]
  · intro missing hokE hmiss hne
    have hselE : selectColumns common_columns (normalizeEce ta) =
        .ok ⟨common_columns, (normalizeEce ta).rows.map (fun r =>
          common_columns.map (fun c => cellAt r (colIdx (normalizeEce ta) c)))⟩ := by
      unfold selectColumns
      simp only [hokE]
      rfl
    have hselC : selectColumns common_columns (normalizeCse tb) =
        .error (keyErrorShown missing) := by
      unfold selectColumns
      rw [← hmiss]
      simp [hne]
    refine ⟨?_, fun c hc => msg_contains_field missing c hc⟩
    unfold load_and_clean_data load_and_clean_inner
    rw [h1, h2]
    dsimp only
    rw [hselE]
    dsimp only
    rw [hselC]

/-- C4 amended witness: the amended statement at two concrete inputs — an
ECE file missing Designation (ECE branch) and a CSE file missing
Designation with a complete ECE file (CSE branch). -/
theorem schema_error_surfaced_witness :
    (load_and_clean_data exEceMissingFile exCseFile =
      .noneShown ("Error processing files: " ++ keyErrorShown ["Designation"]) ∧
     ∀ c ∈ ["Designation"],
       containsSeq c.toList
         ("Error processing files: " ++ keyErrorShown ["Designation"]).toList = true) ∧
    (load_and_clean_data exEceFile exCseMissingFile =
      .noneShown ("Error processing files: " ++ keyErrorShown ["Designation"]) ∧
     ∀ c ∈ ["Designation"],
       containsSeq c.toList
         ("Error processing files: " ++ keyErrorShown ["Designation"]).toList = true) :=
  ⟨(schema_error_surfaced exEceMissingFile exCseFile exEceMissingTable exCseTable
      rfl rfl).1 ["Designation"] rfl (by simp),
   (schema_error_surfaced exEceFile exCseMissingFile exEceTable exCseMissingTable
      rfl rfl).2 ["Designation"] rfl rfl (by simp)⟩

/-! ## C10: the Department tag overwrites any input Department column -/

theorem lookup_mem {α β : Type} [BEq α] [LawfulBEq α] :
    ∀ (m : List (α × β)) (k : α) (v : β), m.lookup k = some v → (k, v) ∈ m
  | [], _, _, h => by cases h
  | (a, b) :: rest, k, v, h => by
      by_cases hk : k = a
      · subst hk
        simp [List.lookup] at h
        subst h
        exact List.mem_cons_self _ _
      · have hne : (k == a) = false := beq_eq_false_iff_ne.mpr hk
        rw [List.lookup, hne] at h
        exact List.mem_cons_of_mem _ (lookup_mem rest k v h)

/-- Under a rename map that neither has `Department` as a key nor as a
value, a column is labelled `Department` after renaming exactly when it
was before. -/
theorem rename_keeps_dept_pred (m : List (String × String))
    (hm : ∀ p ∈ m, p.2 ≠ "Department") (hk : m.lookup "Department" = none)
    (h : String) :
    (((m.lookup h).getD h) == "Department") = (h == "Department") := by
  by_cases hd : h = "Department"
  · subst hd
    rw [hk]
    rfl
  · cases hl : m.lookup h with
    | none => simp
    | some v =>
        have hv : v ≠ "Department" := hm (h, v) (lookup_mem m h v hl)
        simp [hv, hd]

/-- After `df[name] = v`, the column labelled `name` exists and every cell
in it equals `v`. -/
theorem setColumn_cells (t : RawTable) (name : String) (v : Cell) :
    ∃ i, (setColumn t name v).header.findIdx? (fun h => h == name) = some i ∧
         ∀ r ∈ (setColumn t name v).rows, cellAt r i = v := by
  unfold setColumn
  cases hfi : t.header.findIdx? (fun h => h == name) with
  | some i =>
      dsimp only
      refine ⟨i, hfi, ?_⟩
      intro r hr
      obtain ⟨r0, hr0, rfl⟩ := List.mem_map.mp hr
      have hi : i < t.header.length :=
        (List.findIdx?_eq_some_iff_findIdx_eq.mp hfi).1
      have hlen : i < ((fitRow t.header.length r0).set i v).length := by
        rw [List.length_set, fitRow_length]
        exact hi
      unfold cellAt
      rw [List.getD_eq_getElem _ _ hlen, List.getElem_set_self]
  | none =>
      dsimp only
      refine ⟨t.header.length, ?_, ?_⟩
      · rw [List.findIdx?_append, hfi]
        simp
      · intro r hr
        obtain ⟨r0, hr0, rfl⟩ := List.mem_map.mp hr
        have hl : t.header.length < (fitRow t.header.length r0 ++ [v]).length := by
          simp [fitRow_length]
        unfold cellAt
        rw [List.getD_eq_getElem _ _ hl]
        exact List.getElem_concat_length _ _ _ (by rw [fitRow_length]) _

/-- After tagging and renaming, the `Department` column still exists at the
same position and all its cells hold the tag value. -/
theorem normalize_dept_cells (m : List (String × String))
    (hm : ∀ p ∈ m, p.2 ≠ "Department") (hk : m.lookup "Department" = none)
    (t : RawTable) (v : Cell) :
    ∃ i, (renameCols m (setColumn t "Department" v)).header.findIdx?
           (fun h => h == "Department") = some i ∧
         ∀ r ∈ (renameCols m (setColumn t "Department" v)).rows, cellAt r i = v := by
  obtain ⟨i, hdx, hcells⟩ := setColumn_cells t "Department" v
  refine ⟨i, ?_, ?_⟩
  · show ((setColumn t "Department" v).header.map
      (fun h => (m.lookup h).getD h)).findIdx? (fun h => h == "Department") = some i
    rw [List.findIdx?_map]
    have hcomp : ((fun h : String => h == "Department") ∘
        (fun h => (m.lookup h).getD h)) = (fun h : String => h == "Department") := by
      funext h
      exact rename_keeps_dept_pred m hm hk h
    rw [hcomp]
    exact hdx
  · intro r hr
    exact hcells r hr

/-- After selecting the canonical columns from a table whose `Department`
column holds `v` everywhere, position 10 of every selected row is `v`. -/
theorem selected_dept_cells (A sa : RawTable) (i : Nat) (v : Cell)
    (hdx : A.header.findIdx? (fun h => h == "Department") = some i)
    (hcells : ∀ r ∈ A.rows, cellAt r i = v)
    (hsel : selectColumns common_columns A = .ok sa) :
    ∀ r ∈ sa.rows, r.getD 10 .na = v := by
  obtain ⟨-, hrows⟩ := selectColumns_ok _ _ _ hsel
  intro r hr
  rw [hrows] at hr
  obtain ⟨r0, hr0, rfl⟩ := List.mem_map.mp hr
  have h10 : (10 : ℕ) < (common_columns.map
      (fun c => cellAt r0 (colIdx A c))).length := by
    simp [common_columns]
  rw [List.getD_eq_getElem _ _ h10, List.getElem_map]
  have h10cc : (10 : ℕ) < common_columns.length := by
    simp [common_columns]
  have hcc : common_columns[10] = "Department" := rfl
  rw [hcc]
  have hci : colIdx A "Department" = i := by
    unfold colIdx
    rw [hdx]
    rfl
  rw [hci]
  exact hcells r0 hr0

/-- C10: the Department tag is assigned before renaming and selection and
overwrites any `Department` column present in the input file: in every
successful merged table, position 10 (the `Department` column) of each row
originating from the ECE file is exactly "ECE" and of each row from the
CSE file exactly "CSE", whatever the file contents were. -/
theorem department_tag_forced (ece cse : FileInput) (t : RawTable)
    (h : load_and_clean_data ece cse = .data t) :
    t.header = common_columns ∧
    common_columns.getD 10 "" = "Department" ∧
    ∃ rowsA rowsB, t.rows = rowsA ++ rowsB ∧
      (∀ r ∈ rowsA, r.getD 10 .na = .str "ECE") ∧
      (∀ r ∈ rowsB, r.getD 10 .na = .str "CSE") := by
  have hin := load_and_clean_data_data ece cse t h
  obtain ⟨ta, tb, sa, sb, -, -, hsa, hsb, rfl⟩ :=
    load_and_clean_inner_ok ece cse t hin
  obtain ⟨hsaH, -⟩ := selectColumns_ok _ _ _ hsa
  have hlenA := selectColumns_ok_row_length _ _ _ hsa
  have hlenB := selectColumns_ok_row_length _ _ _ hsb
  refine ⟨by rw [merge_and_clean_header, hsaH], rfl, ?_⟩
  obtain ⟨iE, hdxE, hcellsE⟩ :=
    normalize_dept_cells ece_rename_map (by decide) rfl ta (.str "ECE")
  obtain ⟨iC, hdxC, hcellsC⟩ :=
    normalize_dept_cells cse_rename_map (by decide) rfl tb (.str "CSE")
  have hsaDept := selected_dept_cells _ _ _ _ hdxE hcellsE hsa
  have hsbDept := selected_dept_cells _ _ _ _ hdxC hcellsC hsb
  refine ⟨sa.rows.map (cleanRowWith sa.header numeric_cols),
          sb.rows.map (cleanRowWith sa.header numeric_cols), ?_, ?_, ?_⟩
  · rw [merge_and_clean_rows, List.map_append]
  · intro r hr
    obtain ⟨r0, hr0, rfl⟩ := List.mem_map.mp hr
    have h10h : (10 : ℕ) < sa.header.length := by
      rw [hsaH]
      simp [common_columns]
    have h10r : (10 : ℕ) < r0.length := by
      rw [hlenA r0 hr0]
      simp [common_columns]
    have hlen10 : (10 : ℕ) < (cleanRowWith sa.header numeric_cols r0).length := by
      rw [cleanRowWith_length]
      omega
    rw [List.getD_eq_getElem _ _ hlen10,
        cleanRowWith_getElem sa.header numeric_cols r0 10 h10h h10r hlen10]
    have e10 : sa.header[10] = "Department" := by
      rw [← List.getD_eq_getElem sa.header "" h10h, hsaH]
      rfl
    rw [e10]
    have hnc : numeric_cols.contains "Department" = false := rfl
    rw [hnc]
    simp only [Bool.false_eq_true, if_false]
    have := hsaDept r0 hr0
    rwa [List.getD_eq_getElem _ _ h10r] at this
  · intro r hr
    obtain ⟨r0, hr0, rfl⟩ := List.mem_map.mp hr
    have h10h : (10 : ℕ) < sa.header.length := by
      rw [hsaH]
      simp [common_columns]
    have h10r : (10 : ℕ) < r0.length := by
      rw [hlenB r0 hr0]
      simp [common_columns]
    have hlen10 : (10 : ℕ) < (cleanRowWith sa.header numeric_cols r0).length := by
      rw [cleanRowWith_length]
      omega
    rw [List.getD_eq_getElem _ _ hlen10,
        cleanRowWith_getElem sa.header numeric_cols r0 10 h10h h10r hlen10]
    have e10 : sa.header[10] = "Department" := by
      rw [← List.getD_eq_getElem sa.header "" h10h, hsaH]
      rfl
    rw [e10]
    have hnc : numeric_cols.contains "Department" = false := rfl
    rw [hnc]
    simp only [Bool.false_eq_true, if_false]
    have := hsbDept r0 hr0
    rwa [List.getD_eq_getElem _ _ h10r] at this

def exEceDeptFile : FileInput := fileOk exEceDeptTable

/-- The merged table when the ECE input already carried a `Department`
column containing "Physics". -/
def exMergedDept : RawTable :=
  match load_and_clean_data exEceDeptFile exCseFile with
  | .data t => t
  | _ => ⟨[], []⟩

/-- C10 witness: even though the ECE input file carries a `Department`
column holding "Physics", the merged table's Department cells read "ECE"
for the ECE row and "CSE" for the CSE row. -/
theorem department_tag_forced_witness :
    exMergedDept.header = common_columns ∧
    common_columns.getD 10 "" = "Department" ∧
    ∃ rowsA rowsB, exMergedDept.rows = rowsA ++ rowsB ∧
      (∀ r ∈ rowsA, r.getD 10 .na = .str "ECE") ∧
      (∀ r ∈ rowsB, r.getD 10 .na = .str "CSE") :=
  department_tag_forced exEceDeptFile exCseFile exMergedDept rfl

/-! ## C8: file tagging and upload handling -/

/-- The last element of `l` if any, else the default `d`. -/
def lastOr (l : List UFile) (d : Option UFile) : Option UFile :=
  match l.getLast? with
  | some x => some x
  | none => d

theorem lastOr_cons (f : UFile) (l : List UFile) (d : Option UFile) :
    lastOr (f :: l) d = lastOr l (some f) := by
  cases l with
  | nil => rfl
  | cons g gs =>
      cases hgl : (g :: gs).getLast? with
      | some x => simp [lastOr, List.getLast?_cons_cons, hgl]
      | none => simp at hgl

theorem lastOr_none (l : List UFile) : lastOr l none = l.getLast? := by
  unfold lastOr
  cases l.getLast? <;> rfl

/-- The tagging fold keeps, for each department, the last matching file. -/
theorem foldl_tagStep (files : List UFile) :
    ∀ acc, files.foldl tagStep acc =
      (lastOr (files.filter nameHasECE) acc.1,
       lastOr (files.filter cseTagged) acc.2) := by
  induction files with
  | nil => intro acc; rfl
  | cons f fs ih =>
      intro acc
      rw [List.foldl_cons, ih]
      by_cases he : nameHasECE f
      · have hc : cseTagged f = false := by simp [cseTagged, he]
        simp [List.filter_cons, he, hc, tagStep, lastOr_cons]
      · by_cases hcse : nameHasCSE f
        · have hct : cseTagged f = true := by simp [cseTagged, he, hcse]
          simp [List.filter_cons, he, hct, tagStep, hcse, lastOr_cons]
        · have hct : cseTagged f = false := by simp [cseTagged, he, hcse]
          simp [List.filter_cons, he, hct, tagStep, hcse]

theorem assignFiles_eq (files : List UFile) :
    assignFiles files =
      ((files.filter nameHasECE).getLast?, (files.filter cseTagged).getLast?) := by
  unfold assignFiles
  rw [foldl_tagStep]
  simp [lastOr_none]

def uf1 : UFile := ⟨"dept_ECE_v1.csv", exEceFile⟩
def uf2 : UFile := ⟨"dept_ECE_v2.csv", exEceFile⟩
def uf3 : UFile := ⟨"dept_CSE.csv", exCseFile⟩

/-- C8 counterexample: a three-file upload in which two files both match
"ECE" cannot be unambiguously tagged, yet the sidebar reports no message
and computes a merged table (from the last ECE match and the CSE match). -/
theorem ambiguous_tagging_counterexample :
    nameHasECE uf1 = true ∧ nameHasECE uf2 = true ∧
    sidebarOutcome [uf1, uf2, uf3] =
      .computed (load_and_clean_data exEceFile exCseFile) ∧
    producedTable (sidebarOutcome [uf1, uf2, uf3]) = true :=
  ⟨rfl, rfl, rfl, rfl⟩

/-- C8 amended: files are tagged by a case-insensitive substring match of
"ECE" (checked first) then "CSE" in the file name, the last match for each
department winning.  With no upload the sidebar shows the waiting notice;
when both departments have a match it computes on the two winning files —
even if several files matched the same department; when some department
has no match it shows a directive warning (below two files) or error (two
or more files) and produces no table. -/
theorem sidebar_tagging_behavior (files : List UFile) :
    (files = [] → sidebarOutcome files = .infoWaiting) ∧
    assignFiles files =
      ((files.filter nameHasECE).getLast?, (files.filter cseTagged).getLast?) ∧
    (∀ fe fc, (files.filter nameHasECE).getLast? = some fe →
      (files.filter cseTagged).getLast? = some fc →
      sidebarOutcome files = .computed (load_and_clean_data fe.content fc.content)) ∧
    (files ≠ [] →
      ((files.filter nameHasECE).getLast? = none ∨
       (files.filter cseTagged).getLast? = none) →
      sidebarOutcome files =
        (if files.length < 2 then .warnUploadTwo else .errCannotDistinguish) ∧
      producedTable (sidebarOutcome files) = false) := by
  have hassign := assignFiles_eq files
  refine ⟨?_, hassign, ?_, ?_⟩
  · intro hnil
    subst hnil
    rfl
  · intro fe fc h1 h2
    have hne : files ≠ [] := by
      intro hnil
      subst hnil
      cases h1
    unfold sidebarOutcome
    rw [if_neg hne, hassign, h1, h2]
  · intro hne hnone
    unfold sidebarOutcome
    rw [if_neg hne, hassign]
    rcases hnone with hE | hC
    · rw [hE]
      cases hfc : (files.filter cseTagged).getLast? <;>
        by_cases hlt : files.length < 2 <;>
          simp [hlt, producedTable]
    · rw [hC]
      cases hfe : (files.filter nameHasECE).getLast? <;>
        by_cases hlt : files.length < 2 <;>
          simp [hlt, producedTable]

def ufSolo : UFile := ⟨"ECE_report.csv", exEceFile⟩

/-- C8 amended witness: uploading only `ECE_report.csv` yields the warning
and no table. -/
theorem sidebar_tagging_behavior_witness :
    sidebarOutcome [ufSolo] =
      (if ([ufSolo] : List UFile).length < 2
       then UploadOutcome.warnUploadTwo else .errCannotDistinguish) ∧
    producedTable (sidebarOutcome [ufSolo]) = false :=
  (sidebar_tagging_behavior [ufSolo]).2.2.2 (by simp) (Or.inr rfl)
